import Mathlib

/-!
Verification of the hive orchestration entry point (hive.go) against its
natural-language specification.

The file shallowly embeds hive.go: the command-line flag surface, the
package-level variable initialization (in particular the two duration
variables computed from the flag values), the mainInHost control flow
(client resolution, smoke mode, the validation / DAG / simulation /
benchmark phases, JSON report emission) and the exit-code logic of main.

External calls that live outside hive.go (the docker daemon, the build
cacher, fetchClientVersions, validateClients, simulateClients,
benchmarkClients, makeGenesisDAG, mainInShell) are modelled as oracle
capabilities: an environment record supplies each call's outcome, and the
embedding records which calls were made as a trace of events.
-/

/-- JSON values, the shape of the data serialized by encoding/json.  Object
fields are kept as an ordered association list; Go renders map keys in
sorted order, which the marshalling functions below perform explicitly. -/
inductive JValue where
  | str (s : String)
  | num (n : Int)
  | bool (b : Bool)
  | null
  | arr (xs : List JValue)
  | obj (fields : List (String × JValue))
deriving Repr

/-- Go errors reaching mainInHost.  The code at hive.go:95 distinguishes the
typed *buildError (carrying the failing client and a message, per the spec
taxonomy BuildError with client and cause) from every other error by a type
assertion; we mirror that with two constructors. -/
inductive GoError where
  | buildErr (client : String) (msg : String)
  | other (msg : String)
deriving Repr, DecidableEq

/-- The command-line flag surface of hive.go lines 17-34 (the fields a run
can set; the log level has no modelled effect). -/
structure Flags where
  dockerEndpoint : String
  noShellContainer : Bool
  noCachePattern : String
  clientPattern : String
  overrideFiles : String
  smoke : Bool
  validatorPattern : String
  simulatorPattern : String
  benchmarkPattern : String
  dockerTimeout : Int
  timeoutCheck : Int
deriving Repr, DecidableEq

/-- The default values registered with the flag package (hive.go 17-34). -/
def flagDefaults : Flags :=
  { dockerEndpoint := "unix:///var/run/docker.sock"
    noShellContainer := false
    noCachePattern := ""
    clientPattern := ":master"
    overrideFiles := ""
    smoke := false
    validatorPattern := "."
    simulatorPattern := ""
    benchmarkPattern := ""
    dockerTimeout := 10
    timeoutCheck := 30 }

/-- One nanosecond per Go time.Duration unit: time.Minute in nanoseconds. -/
def minuteNs : Int := 60 * 1000000000

/-- time.Second in nanoseconds. -/
def secondNs : Int := 1000000000

/-- The package-level mutable state of hive.go: the flag variables and the
two derived duration variables (hive.go lines 31-34). -/
structure ProgState where
  flags : Flags
  dockerTimeoutDuration : Int
  timeoutCheckDuration : Int
deriving Repr, DecidableEq

/-- Package initialization.  Go evaluates package-level variable
initializers before main runs, hence before the flag.Parse call at
hive.go:42.  At that point every flag variable still holds the default
registered with flag.Int, so line 32, dockerTimeoutDuration =
time.Duration(*dockerTimeout) * time.Minute, reads *dockerTimeout = 10, and
line 34 reads *timeoutCheck = 30. -/
def packageInit : ProgState :=
  { flags := flagDefaults
    dockerTimeoutDuration := flagDefaults.dockerTimeout * minuteNs
    timeoutCheckDuration := flagDefaults.timeoutCheck * secondNs }

/-- flag.Parse (hive.go:42): the flag variables take the command-line
values; the two duration variables were already initialized and are not
recomputed. -/
def flagParse (cmdline : Flags) (s : ProgState) : ProgState :=
  { s with flags := cmdline }

/-- The program state after main has parsed the command line. -/
def stateAfterParse (cmdline : Flags) : ProgState :=
  flagParse cmdline packageInit

/-- Insertion of one field into a key-sorted field list (byte-wise string
order, as Go sorts JSON map keys). -/
def insertField (p : String × JValue) : List (String × JValue) → List (String × JValue)
  | [] => [p]
  | q :: rest => if p.1 ≤ q.1 then p :: q :: rest else q :: insertField p rest

/-- Sort an association list by key, the order encoding/json uses for Go
maps. -/
def sortFields (l : List (String × JValue)) : List (String × JValue) :=
  l.foldr insertField []

/-- Per-client version metadata: map client-id to string-to-string map, the
type of the Clients field (hive.go:85). -/
abbrev ClientsMap := List (String × List (String × String))

/-- Category results: map client-id to test-name to a result value.  The
result types validationResult / simulationResult / benchmarkResult are
defined outside hive.go; their serialized form is kept as an opaque
JValue. -/
abbrev ResMap := List (String × List (String × JValue))

/-- The anonymous results struct of mainInHost (hive.go 84-89).  Go maps
start out nil; a nil map and an empty map serialize identically under
omitempty, so sections are plain lists with the empty list as zero value. -/
structure Results where
  clients : ClientsMap
  validations : ResMap
  simulations : ResMap
  benchmarks : ResMap
deriving Repr

/-- The zero value of the results struct. -/
def emptyResults : Results :=
  { clients := [], validations := [], simulations := [], benchmarks := [] }

/-- encoding/json on a map of string-to-string maps: keys sorted at both
levels, leaves as JSON strings. -/
def marshalClientsMap (m : ClientsMap) : JValue :=
  .obj (sortFields (m.map fun p => (p.1, .obj (sortFields (p.2.map fun q => (q.1, .str q.2))))))

/-- encoding/json on a category section: keys sorted at both levels. -/
def marshalResMap (m : ResMap) : JValue :=
  .obj (sortFields (m.map fun p => (p.1, .obj (sortFields p.2))))

/-- encoding/json on the results struct: fields in declaration order, each
tagged omitempty (hive.go 85-88), so a field whose map is nil or empty is
omitted from the object. -/
def marshalResults (r : Results) : JValue :=
  .obj ((if r.clients.isEmpty then [] else [("clients", marshalClientsMap r.clients)])
    ++ (if r.validations.isEmpty then [] else [("validations", marshalResMap r.validations)])
    ++ (if r.simulations.isEmpty then [] else [("simulations", marshalResMap r.simulations)])
    ++ (if r.benchmarks.isEmpty then [] else [("benchmarks", marshalResMap r.benchmarks)]))

/-- Lowercase hex digit, for the control-character escapes of
encoding/json. -/
def hexDigit (n : Nat) : Char :=
  if n < 10 then Char.ofNat (48 + n) else Char.ofNat (87 + n)

/-- encoding/json escaping of one character inside a JSON string: the
standard escapes, the HTML-safe escapes for angle brackets and ampersand,
and a numeric escape for the remaining control characters. -/
def quoteJsonChar (c : Char) : String :=
  if c = '"' then "\\\""
  else if c = '\\' then "\\\\"
  else if c = '\n' then "\\n"
  else if c = '\r' then "\\r"
  else if c = '\t' then "\\t"
  else if c = '<' then "\\u003c"
  else if c = '>' then "\\u003e"
  else if c = '&' then "\\u0026"
  else if c.toNat < 32 then
    "\\u00" ++ String.singleton (hexDigit (c.toNat / 16)) ++ String.singleton (hexDigit (c.toNat % 16))
  else String.singleton c

/-- encoding/json rendering of a string literal. -/
def quoteJsonString (s : String) : String :=
  "\"" ++ String.join (s.toList.map quoteJsonChar) ++ "\""

/-- Concatenate rendered members with the comma-newline separator
MarshalIndent places between them. -/
def joinLines : List String → String
  | [] => ""
  | [s] => s
  | s :: rest => s ++ ",\n" ++ joinLines rest

/-- The indentation in front of a member at a given nesting depth: the
indent string repeated depth times (MarshalIndent was called with an empty
prefix). -/
def pad (ind : String) : Nat → String
  | 0 => ""
  | n + 1 => ind ++ pad ind n

/-- Text layout of json.MarshalIndent with empty prefix: members of a
non-empty object or array each on their own line, one indent unit deeper,
with the closing bracket on the enclosing depth. -/
def renderJ (ind : String) (depth : Nat) : JValue → String
  | .str s => quoteJsonString s
  | .num n => toString n
  | .bool b => if b then "true" else "false"
  | .null => "null"
  | .arr [] => "[]"
  | .arr (x :: xs) =>
      "[\n"
        ++ joinLines (((x :: xs).attach).map fun y =>
             pad ind (depth + 1) ++ renderJ ind (depth + 1) y.1)
        ++ "\n" ++ pad ind depth ++ "]"
  | .obj [] => "\x7b\x7d"
  | .obj (f :: fs) =>
      "\x7b\n"
        ++ joinLines (((f :: fs).attach).map fun g =>
             pad ind (depth + 1) ++ quoteJsonString g.1.1 ++ ": "
               ++ renderJ ind (depth + 1) g.1.2)
        ++ "\n" ++ pad ind depth ++ "\x7d"
termination_by v => sizeOf v
decreasing_by
  · have h := List.sizeOf_lt_of_mem y.2
    simp at h ⊢
    omega
  · have h := List.sizeOf_lt_of_mem g.2
    rcases g with ⟨⟨k, v⟩, hm⟩
    simp at h ⊢
    omega

/-- json.MarshalIndent(results, "", "  ") followed by printing (hive.go 99
and 148): serialize the results struct and lay it out with two-space
indentation. -/
def marshalIndentResults (r : Results) : String :=
  renderJ "  " 0 (marshalResults r)

/-- The external calls mainInHost makes, in order, with the pattern
arguments passed to each.  validateClients / simulateClients /
benchmarkClients and makeGenesisDAG live outside hive.go, so one event per
call is the granularity the source fixes. -/
inductive Event where
  | fetchVersions (clientPattern : String)
  | validateCall (clientPattern testPattern : String)
  | makeDAG
  | simulateCall (clientPattern testPattern : String)
  | benchmarkCall (clientPattern testPattern : String)
deriving Repr, DecidableEq

/-- Oracle for the capabilities mainInHost consumes.  Modelled from the
spec: fetchClientVersions resolves the client pattern into per-client
version maps or fails (possibly with a client-level build error);
validateClients / simulateClients / benchmarkClients run one category
against the given client and test patterns with the override list and
return its results; makeGenesisDAG is the one-time simulation
prerequisite.  The docker daemon handle and the build cacher threaded
through these calls in Go carry no control flow inside hive.go and are
absorbed into the oracle. -/
structure Daemon where
  fetchClientVersions : String → Except GoError ClientsMap
  validateClients : String → String → List String → Except GoError ResMap
  simulateClients : String → String → List String → Except GoError ResMap
  benchmarkClients : String → String → List String → Except GoError ResMap
  makeGenesisDAG : Except GoError Unit

/-- Outcome of one mainInHost run: the calls made, the lines printed to
standard output, and the returned error. -/
structure HostOutcome where
  trace : List Event
  output : List String
  err : Option GoError
deriving Repr

/-- Report emission (hive.go 147-155): marshal the results and print them;
the model's marshalling is total, as Go marshalling of this struct cannot
fail. -/
def finishReport (t : List Event) (r : Results) : HostOutcome :=
  { trace := t, output := [marshalIndentResults r], err := none }

/-- Benchmark phase (hive.go 140-145): nothing runs when the benchmark
pattern is empty; otherwise one benchmarkClients call whose failure aborts
the run. -/
def runBenchmarks (d : Daemon) (o : List String) (fl : Flags)
    (t : List Event) (r : Results) : HostOutcome :=
  if fl.benchmarkPattern ≠ "" then
    let t1 := t ++ [Event.benchmarkCall fl.clientPattern fl.benchmarkPattern]
    match d.benchmarkClients fl.clientPattern fl.benchmarkPattern o with
    | .error e => { trace := t1, output := [], err := some e }
    | .ok b => finishReport t1 { r with benchmarks := b }
  else finishReport t r

/-- Simulation phase (hive.go 130-139): skipped entirely on an empty
simulator pattern; otherwise makeGenesisDAG runs first and its failure
aborts the run before any simulateClients call. -/
def runSimulations (d : Daemon) (o : List String) (fl : Flags)
    (t : List Event) (r : Results) : HostOutcome :=
  if fl.simulatorPattern ≠ "" then
    let t1 := t ++ [Event.makeDAG]
    match d.makeGenesisDAG with
    | .error e => { trace := t1, output := [], err := some e }
    | .ok _ =>
      let t2 := t1 ++ [Event.simulateCall fl.clientPattern fl.simulatorPattern]
      match d.simulateClients fl.clientPattern fl.simulatorPattern o with
      | .error e => { trace := t2, output := [], err := some e }
      | .ok s => runBenchmarks d o fl t2 { r with simulations := s }
  else runBenchmarks d o fl t r

/-- Validation phase (hive.go 124-129): skipped on an empty validator
pattern; otherwise one validateClients call whose failure aborts the
run. -/
def runValidations (d : Daemon) (o : List String) (fl : Flags)
    (t : List Event) (r : Results) : HostOutcome :=
  if fl.validatorPattern ≠ "" then
    let t1 := t ++ [Event.validateCall fl.clientPattern fl.validatorPattern]
    match d.validateClients fl.clientPattern fl.validatorPattern o with
    | .error e => { trace := t1, output := [], err := some e }
    | .ok v => runSimulations d o fl t1 { r with validations := v }
  else runSimulations d o fl t r

/-- Smoke branch (hive.go 109-121): all three categories run with the
fixed test pattern "smoke/", the three category pattern flags are never
consulted, and makeGenesisDAG is not invoked. -/
def runSmoke (d : Daemon) (o : List String) (fl : Flags)
    (t : List Event) (r : Results) : HostOutcome :=
  let t1 := t ++ [Event.validateCall fl.clientPattern "smoke/"]
  match d.validateClients fl.clientPattern "smoke/" o with
  | .error e => { trace := t1, output := [], err := some e }
  | .ok v =>
    let t2 := t1 ++ [Event.simulateCall fl.clientPattern "smoke/"]
    match d.simulateClients fl.clientPattern "smoke/" o with
    | .error e => { trace := t2, output := [], err := some e }
    | .ok s =>
      let t3 := t2 ++ [Event.benchmarkCall fl.clientPattern "smoke/"]
      match d.benchmarkClients fl.clientPattern "smoke/" o with
      | .error e => { trace := t3, output := [], err := some e }
      | .ok b =>
        finishReport t3 { r with validations := v, simulations := s, benchmarks := b }

/-- mainInHost (hive.go 83-155).  Client resolution comes first; a typed
build error replaces the clients map with the single failing client mapped
to an error payload, prints that minimal report and still returns the
error, while any other resolution error returns without printing.  On
success the smoke branch or the three category phases run, and the final
results are marshalled and printed. -/
def mainInHost (d : Daemon) (o : List String) (fl : Flags) : HostOutcome :=
  let t0 := [Event.fetchVersions fl.clientPattern]
  match d.fetchClientVersions fl.clientPattern with
  | .error (.buildErr c msg) =>
    let r := { emptyResults with clients := [(c, [("error", msg)])] }
    { trace := t0, output := [marshalIndentResults r], err := some (.buildErr c msg) }
  | .error (.other m) => { trace := t0, output := [], err := some (.other m) }
  | .ok cls =>
    if fl.smoke then runSmoke d o fl t0 { emptyResults with clients := cls }
    else runValidations d o fl t0 { emptyResults with clients := cls }

/-- Oracle for the external calls made by main before the runner starts
(hive.go 46-67): docker.NewClient on the endpoint, daemon.Version, and the
regexp compilation inside newBuildCacher — per the spec a pattern syntax
error is a configuration error surfaced before any building starts.
mainInShell (the outer shell mode) is outside the embedded core, so its
outcome is likewise supplied by the environment. -/
structure Env where
  newClient : String → Except GoError Unit
  daemonVersion : Except GoError String
  compileCacher : String → Except GoError Unit
  host : Daemon
  shellErr : Option GoError
  shellOutput : List String
  shellTrace : List Event

/-- Observable outcome of the whole process: the exit status (0 for a
plain return from main, the argument of os.Exit otherwise), stdout lines
and the call trace. -/
structure MainOutcome where
  exitCode : Int
  output : List String
  trace : List Event
deriving Repr

/-- strings.Split on the override flag when non-empty (hive.go 59-62). -/
def overridesOf (fl : Flags) : List String :=
  if fl.overrideFiles ≠ "" then fl.overrideFiles.splitOn "," else []

/-- main (hive.go 37-78).  A failure to connect to the daemon, to query
its version, or to compile the nocache pattern logs at crit level and then
returns from main, so the process ends with exit status 0 and nothing on
standard output.  Otherwise the host or shell runner executes, and a
non-nil error from it triggers os.Exit(-1). -/
def mainGo (env : Env) (cmdline : Flags) : MainOutcome :=
  match env.newClient cmdline.dockerEndpoint with
  | .error _ => { exitCode := 0, output := [], trace := [] }
  | .ok _ =>
    match env.daemonVersion with
    | .error _ => { exitCode := 0, output := [], trace := [] }
    | .ok _ =>
      match env.compileCacher cmdline.noCachePattern with
      | .error _ => { exitCode := 0, output := [], trace := [] }
      | .ok _ =>
        if cmdline.noShellContainer then
          let h := mainInHost env.host (overridesOf cmdline) cmdline
          { exitCode := if h.err.isSome then -1 else 0, output := h.output, trace := h.trace }
        else
          { exitCode := if env.shellErr.isSome then -1 else 0
            output := env.shellOutput, trace := env.shellTrace }

/-- Key list of a JSON object (and the empty list on other values). -/
def objKeys : JValue → List String
  | .obj fs => fs.map Prod.fst
  | _ => []

/-- Concrete client-version data used for witness runs. -/
def clsGeth : ClientsMap := [("geth", [("commit", "abc123")])]

/-- Concrete validation results used for witness runs. -/
def valGeth : ResMap :=
  [("geth", [("t1", .obj [("pass", .bool true)]), ("t2", .obj [("pass", .bool false)])])]

/-- Concrete simulation results used for witness runs. -/
def simGeth : ResMap := [("geth", [("s1", .obj [("pass", .bool true)])])]

/-- Concrete benchmark results used for witness runs. -/
def benchGeth : ResMap := [("geth", [("b1", .obj [("nanos", .num 12)])])]

/-- Oracle on which every external call succeeds. -/
def dOk : Daemon :=
  { fetchClientVersions := fun _ => .ok clsGeth
    validateClients := fun _ _ _ => .ok valGeth
    simulateClients := fun _ _ _ => .ok simGeth
    benchmarkClients := fun _ _ _ => .ok benchGeth
    makeGenesisDAG := .ok () }

/-- Oracle on which only the DAG precomputation fails. -/
def dDagFail : Daemon := { dOk with makeGenesisDAG := .error (.other "dag failed") }

/-- Oracle on which client resolution fails with a typed build error. -/
def dBuildFail : Daemon :=
  { dOk with fetchClientVersions := fun _ => .error (.buildErr "geth" "boom") }

/-- Oracle on which client resolution fails with a non-build error. -/
def dOtherFail : Daemon :=
  { dOk with fetchClientVersions := fun _ => .error (.other "daemon down") }

/-- Environment in which the daemon is reachable and the nocache pattern
compiles, running the given host oracle. -/
def envWith (d : Daemon) : Env :=
  { newClient := fun _ => .ok ()
    daemonVersion := .ok "1.25"
    compileCacher := fun _ => .ok ()
    host := d
    shellErr := none
    shellOutput := []
    shellTrace := [] }

/-- Environment in which the nocache pattern fails to compile. -/
def envBadCache : Env :=
  { envWith dOk with compileCacher := fun _ => .error (.other "error parsing regexp") }

/-- Command line selecting the in-host run path, otherwise defaults. -/
def cmdHost : Flags := { flagDefaults with noShellContainer := true }

/-- Command line enabling all three categories in host mode. -/
def cmdFull : Flags := { cmdHost with simulatorPattern := "eth/", benchmarkPattern := "perf/" }

/-- Command line requesting smoke mode in host mode. -/
def cmdSmoke : Flags := { cmdHost with smoke := true }

/-- Command line with a malformed nocache pattern in host mode. -/
def cmdBadCache : Flags := { cmdHost with noCachePattern := "(" }

/-- Command line enabling validations and simulations in host mode. -/
def cmdValSim : Flags := { cmdHost with simulatorPattern := "eth/" }

/-- Results record emitted by a defaults run against the all-success
oracle, used as concrete witness data. -/
def rDefault : Results :=
  { clients := clsGeth, validations := valGeth, simulations := [], benchmarks := [] }

/-- Key list of the serialized results object: the four field names in
declaration order, each present exactly when its section is non-empty. -/
theorem objKeys_marshalResults (r : Results) :
    objKeys (marshalResults r) =
      (if r.clients.isEmpty then [] else ["clients"])
        ++ (if r.validations.isEmpty then [] else ["validations"])
        ++ (if r.simulations.isEmpty then [] else ["simulations"])
        ++ (if r.benchmarks.isEmpty then [] else ["benchmarks"]) := by
  unfold marshalResults objKeys
  by_cases h1 : r.clients.isEmpty <;> by_cases h2 : r.validations.isEmpty <;>
    by_cases h3 : r.simulations.isEmpty <;> by_cases h4 : r.benchmarks.isEmpty <;>
    simp [h1, h2, h3, h4]

/-- The serialized results object draws its keys, in order, from the four
section names, and holds a key exactly when the section is non-empty. -/
theorem marshalResults_keys_spec (r : Results) :
    (objKeys (marshalResults r)).Sublist ["clients", "validations", "simulations", "benchmarks"]
    ∧ ("clients" ∈ objKeys (marshalResults r) ↔ r.clients ≠ [])
    ∧ ("validations" ∈ objKeys (marshalResults r) ↔ r.validations ≠ [])
    ∧ ("simulations" ∈ objKeys (marshalResults r) ↔ r.simulations ≠ [])
    ∧ ("benchmarks" ∈ objKeys (marshalResults r) ↔ r.benchmarks ≠ []) := by
  rw [objKeys_marshalResults]
  by_cases h1 : r.clients.isEmpty <;> by_cases h2 : r.validations.isEmpty <;>
    by_cases h3 : r.simulations.isEmpty <;> by_cases h4 : r.benchmarks.isEmpty <;>
    simp_all [List.isEmpty_iff]

/-- Every line the benchmark phase prints is a marshalled results record
that keeps the earlier sections of its input record. -/
theorem runBenchmarks_out (d : Daemon) (o : List String) (fl : Flags)
    (t : List Event) (r : Results) :
    ∀ s ∈ (runBenchmarks d o fl t r).output, ∃ r2 : Results,
      s = marshalIndentResults r2 ∧ r2.clients = r.clients
      ∧ r2.validations = r.validations ∧ r2.simulations = r.simulations
      ∧ (fl.benchmarkPattern = "" → r2.benchmarks = r.benchmarks) := by
  intro s hs
  unfold runBenchmarks finishReport at hs
  by_cases hb : fl.benchmarkPattern = ""
  · simp [hb] at hs
    exact ⟨r, hs, rfl, rfl, rfl, fun _ => rfl⟩
  · simp [hb] at hs
    cases hx : d.benchmarkClients fl.clientPattern fl.benchmarkPattern o with
    | error e => rw [hx] at hs; simp at hs
    | ok b =>
        rw [hx] at hs; simp at hs
        exact ⟨{ r with benchmarks := b }, hs, rfl, rfl, rfl, fun h => absurd h hb⟩

/-- Every line the simulation phase prints is a marshalled results record
that keeps the clients and validations sections of its input record, and
its simulations section too when the simulator pattern is empty. -/
theorem runSimulations_out (d : Daemon) (o : List String) (fl : Flags)
    (t : List Event) (r : Results) :
    ∀ s ∈ (runSimulations d o fl t r).output, ∃ r2 : Results,
      s = marshalIndentResults r2 ∧ r2.clients = r.clients
      ∧ r2.validations = r.validations
      ∧ (fl.simulatorPattern = "" → r2.simulations = r.simulations)
      ∧ (fl.benchmarkPattern = "" → r2.benchmarks = r.benchmarks) := by
  intro s hs
  unfold runSimulations at hs
  by_cases hsim : fl.simulatorPattern = ""
  · simp [hsim] at hs
    obtain ⟨r2, h1, h2, h3, h4, h5⟩ := runBenchmarks_out d o fl t r s hs
    exact ⟨r2, h1, h2, h3, fun _ => h4, h5⟩
  · simp [hsim] at hs
    cases hdag : d.makeGenesisDAG with
    | error e => rw [hdag] at hs; simp at hs
    | ok u =>
        rw [hdag] at hs; simp at hs
        cases hx : d.simulateClients fl.clientPattern fl.simulatorPattern o with
        | error e => rw [hx] at hs; simp at hs
        | ok v =>
            rw [hx] at hs; simp at hs
            obtain ⟨r2, h1, h2, h3, h4, h5⟩ :=
              runBenchmarks_out d o fl _ { r with simulations := v } s hs
            exact ⟨r2, h1, h2, h3, fun h => absurd h hsim, h5⟩

/-- Every line the validation phase prints is a marshalled results record
that keeps the clients section of its input record, and each later section
too when the corresponding pattern is empty. -/
theorem runValidations_out (d : Daemon) (o : List String) (fl : Flags)
    (t : List Event) (r : Results) :
    ∀ s ∈ (runValidations d o fl t r).output, ∃ r2 : Results,
      s = marshalIndentResults r2 ∧ r2.clients = r.clients
      ∧ (fl.validatorPattern = "" → r2.validations = r.validations)
      ∧ (fl.simulatorPattern = "" → r2.simulations = r.simulations)
      ∧ (fl.benchmarkPattern = "" → r2.benchmarks = r.benchmarks) := by
  intro s hs
  unfold runValidations at hs
  by_cases hv : fl.validatorPattern = ""
  · simp [hv] at hs
    obtain ⟨r2, h1, h2, h3, h4, h5⟩ := runSimulations_out d o fl t r s hs
    exact ⟨r2, h1, h2, fun _ => h3, h4, h5⟩
  · simp [hv] at hs
    cases hx : d.validateClients fl.clientPattern fl.validatorPattern o with
    | error e => rw [hx] at hs; simp at hs
    | ok v =>
        rw [hx] at hs; simp at hs
        obtain ⟨r2, h1, h2, h3, h4, h5⟩ :=
          runSimulations_out d o fl (t ++ [Event.validateCall fl.clientPattern fl.validatorPattern])
            { r with validations := v } s hs
        exact ⟨r2, h1, h2, fun h => absurd h hv, h4, h5⟩

/-- Every line the smoke branch prints is a marshalled results record. -/
theorem runSmoke_out (d : Daemon) (o : List String) (fl : Flags)
    (t : List Event) (r : Results) :
    ∀ s ∈ (runSmoke d o fl t r).output, ∃ r2 : Results, s = marshalIndentResults r2 := by
  intro s hs
  unfold runSmoke finishReport at hs
  cases h1 : d.validateClients fl.clientPattern "smoke/" o with
  | error e => rw [h1] at hs; simp at hs
  | ok v =>
      rw [h1] at hs
      cases h2 : d.simulateClients fl.clientPattern "smoke/" o with
      | error e => rw [h2] at hs; simp at hs
      | ok s2 =>
          rw [h2] at hs
          cases h3 : d.benchmarkClients fl.clientPattern "smoke/" o with
          | error e => rw [h3] at hs; simp at hs
          | ok b =>
              rw [h3] at hs; simp at hs
              exact ⟨_, hs⟩

/-- Every line mainInHost prints is a marshalled results record; outside
smoke mode a category whose pattern is empty has an empty section in it. -/
theorem mainInHost_out (d : Daemon) (o : List String) (fl : Flags) :
    ∀ s ∈ (mainInHost d o fl).output, ∃ r2 : Results,
      s = marshalIndentResults r2
      ∧ (fl.smoke = false → fl.validatorPattern = "" → r2.validations = [])
      ∧ (fl.smoke = false → fl.simulatorPattern = "" → r2.simulations = [])
      ∧ (fl.smoke = false → fl.benchmarkPattern = "" → r2.benchmarks = []) := by
  intro s hs
  unfold mainInHost at hs
  cases hf : d.fetchClientVersions fl.clientPattern with
  | error e =>
      cases e with
      | buildErr c msg =>
          rw [hf] at hs; simp [emptyResults] at hs
          exact ⟨{ clients := [(c, [("error", msg)])], validations := [], simulations := [],
                   benchmarks := [] }, hs, fun _ _ => rfl, fun _ _ => rfl, fun _ _ => rfl⟩
      | other m => rw [hf] at hs; simp at hs
  | ok cls =>
      rw [hf] at hs
      by_cases hsm : fl.smoke
      · simp [hsm] at hs
        obtain ⟨r2, h1⟩ := runSmoke_out d o fl _ _ s hs
        exact ⟨r2, h1, fun h => absurd h (by simp [hsm]), fun h => absurd h (by simp [hsm]),
               fun h => absurd h (by simp [hsm])⟩
      · simp [hsm] at hs
        obtain ⟨r2, h1, h2, h3, h4, h5⟩ :=
          runValidations_out d o fl _ { emptyResults with clients := cls } s hs
        exact ⟨r2, h1, fun _ => h3, fun _ => h4, fun _ => h5⟩


/-- The benchmark phase either leaves the trace unchanged or appends the
single benchmark call. -/
theorem runBenchmarks_trace_or (d : Daemon) (o : List String) (fl : Flags)
    (t : List Event) (r : Results) :
    (runBenchmarks d o fl t r).trace = t
    ∨ (runBenchmarks d o fl t r).trace =
        t ++ [Event.benchmarkCall fl.clientPattern fl.benchmarkPattern] := by
  unfold runBenchmarks finishReport
  by_cases hb : fl.benchmarkPattern = ""
  · simp [hb]
  · simp [hb]
    cases hx : d.benchmarkClients fl.clientPattern fl.benchmarkPattern o <;> simp

/-- Every event of the benchmark phase's trace comes from the input trace
or is the benchmark call, the latter only with a non-empty pattern. -/
theorem runBenchmarks_events (d : Daemon) (o : List String) (fl : Flags)
    (t : List Event) (r : Results) :
    ∀ e ∈ (runBenchmarks d o fl t r).trace,
      e ∈ t ∨ (fl.benchmarkPattern ≠ ""
        ∧ e = Event.benchmarkCall fl.clientPattern fl.benchmarkPattern) := by
  intro e he
  unfold runBenchmarks finishReport at he
  by_cases hb : fl.benchmarkPattern = ""
  · simp [hb] at he; tauto
  · simp [hb] at he
    cases hx : d.benchmarkClients fl.clientPattern fl.benchmarkPattern o <;>
      rw [hx] at he <;> simp at he <;> tauto

/-- Every event of the simulation phase's trace comes from the input
trace, the DAG or simulation call (non-empty simulator pattern only), or
the benchmark call (non-empty benchmark pattern only). -/
theorem runSimulations_events (d : Daemon) (o : List String) (fl : Flags)
    (t : List Event) (r : Results) :
    ∀ e ∈ (runSimulations d o fl t r).trace,
      e ∈ t
      ∨ (fl.simulatorPattern ≠ ""
          ∧ (e = Event.makeDAG ∨ e = Event.simulateCall fl.clientPattern fl.simulatorPattern))
      ∨ (fl.benchmarkPattern ≠ ""
          ∧ e = Event.benchmarkCall fl.clientPattern fl.benchmarkPattern) := by
  intro e he
  unfold runSimulations at he
  by_cases hsim : fl.simulatorPattern = ""
  · simp [hsim] at he
    have := runBenchmarks_events d o fl t r e he
    tauto
  · simp [hsim] at he
    cases hdag : d.makeGenesisDAG with
    | error e2 => rw [hdag] at he; simp at he; tauto
    | ok u =>
        rw [hdag] at he; simp at he
        cases hx : d.simulateClients fl.clientPattern fl.simulatorPattern o with
        | error e2 => rw [hx] at he; simp at he; tauto
        | ok v =>
            rw [hx] at he
            have := runBenchmarks_events d o fl _ { r with simulations := v } e he
            simp at this
            tauto

/-- Every event of the validation phase's trace comes from the input trace
or is the call of a category whose pattern is non-empty. -/
theorem runValidations_events (d : Daemon) (o : List String) (fl : Flags)
    (t : List Event) (r : Results) :
    ∀ e ∈ (runValidations d o fl t r).trace,
      e ∈ t
      ∨ (fl.validatorPattern ≠ ""
          ∧ e = Event.validateCall fl.clientPattern fl.validatorPattern)
      ∨ (fl.simulatorPattern ≠ ""
          ∧ (e = Event.makeDAG ∨ e = Event.simulateCall fl.clientPattern fl.simulatorPattern))
      ∨ (fl.benchmarkPattern ≠ ""
          ∧ e = Event.benchmarkCall fl.clientPattern fl.benchmarkPattern) := by
  intro e he
  unfold runValidations at he
  by_cases hv : fl.validatorPattern = ""
  · simp [hv] at he
    have := runSimulations_events d o fl t r e he
    tauto
  · simp [hv] at he
    cases hx : d.validateClients fl.clientPattern fl.validatorPattern o with
    | error e2 => rw [hx] at he; simp at he; tauto
    | ok v =>
        rw [hx] at he
        have := runSimulations_events d o fl _ { r with validations := v } e he
        simp at this
        tauto

/-- Every event of the smoke branch's trace comes from the input trace or
is one of the three category calls with the fixed test pattern. -/
theorem runSmoke_events (d : Daemon) (o : List String) (fl : Flags)
    (t : List Event) (r : Results) :
    ∀ e ∈ (runSmoke d o fl t r).trace,
      e ∈ t ∨ e = Event.validateCall fl.clientPattern "smoke/"
      ∨ e = Event.simulateCall fl.clientPattern "smoke/"
      ∨ e = Event.benchmarkCall fl.clientPattern "smoke/" := by
  intro e he
  unfold runSmoke finishReport at he
  cases h1 : d.validateClients fl.clientPattern "smoke/" o with
  | error e2 => rw [h1] at he; simp at he; tauto
  | ok v =>
      rw [h1] at he
      cases h2 : d.simulateClients fl.clientPattern "smoke/" o with
      | error e2 => rw [h2] at he; simp at he; tauto
      | ok s2 =>
          rw [h2] at he
          cases h3 : d.benchmarkClients fl.clientPattern "smoke/" o with
          | error e2 => rw [h3] at he; simp at he; tauto
          | ok b => rw [h3] at he; simp at he; tauto

/-- Every event of a mainInHost trace is the client resolution, a smoke
call (smoke mode only), or the call of a category whose pattern is
non-empty (non-smoke mode only). -/
theorem mainInHost_events (d : Daemon) (o : List String) (fl : Flags) :
    ∀ e ∈ (mainInHost d o fl).trace,
      e = Event.fetchVersions fl.clientPattern
      ∨ (fl.smoke = true
          ∧ (e = Event.validateCall fl.clientPattern "smoke/"
            ∨ e = Event.simulateCall fl.clientPattern "smoke/"
            ∨ e = Event.benchmarkCall fl.clientPattern "smoke/"))
      ∨ (fl.smoke = false ∧ fl.validatorPattern ≠ ""
          ∧ e = Event.validateCall fl.clientPattern fl.validatorPattern)
      ∨ (fl.smoke = false ∧ fl.simulatorPattern ≠ ""
          ∧ (e = Event.makeDAG ∨ e = Event.simulateCall fl.clientPattern fl.simulatorPattern))
      ∨ (fl.smoke = false ∧ fl.benchmarkPattern ≠ ""
          ∧ e = Event.benchmarkCall fl.clientPattern fl.benchmarkPattern) := by
  intro e he
  unfold mainInHost at he
  cases hf : d.fetchClientVersions fl.clientPattern with
  | error e2 =>
      cases e2 <;> rw [hf] at he <;> simp at he <;> tauto
  | ok cls =>
      rw [hf] at he
      by_cases hsm : fl.smoke
      · simp [hsm] at he
        have := runSmoke_events d o fl _ { emptyResults with clients := cls } e he
        simp at this
        have hs2 : fl.smoke = true := hsm
        tauto
      · simp [hsm] at he
        have := runValidations_events d o fl _ { emptyResults with clients := cls } e he
        simp at this
        have hs2 : fl.smoke = false := by simp [hsm]
        tauto

/-- A trace of the form prefix, DAG event, suffix with no DAG event in the
prefix or suffix holds the DAG event exactly once, and every simulation
call in it that is absent from the prefix sits after the DAG event. -/
theorem dag_trace_spec (t ext : List Event)
    (hd : Event.makeDAG ∉ t) (hcalls : ∀ p q, Event.simulateCall p q ∉ t)
    (hext : Event.makeDAG ∉ ext) :
    (t ++ Event.makeDAG :: ext).count Event.makeDAG = 1
    ∧ ∀ p q, Event.simulateCall p q ∈ t ++ Event.makeDAG :: ext →
        ∃ t1 t2, t ++ Event.makeDAG :: ext = t1 ++ Event.makeDAG :: t2
          ∧ Event.simulateCall p q ∈ t2 := by
  constructor
  · rw [List.count_append, List.count_eq_zero.mpr hd, List.count_cons_self,
      List.count_eq_zero.mpr hext]
  · intro p q hm
    refine ⟨t, ext, rfl, ?_⟩
    rcases List.mem_append.mp hm with h | h
    · exact absurd h (hcalls p q)
    · rcases List.mem_cons.mp h with h | h
      · exact Event.noConfusion h
      · exact h


/-- Outside smoke mode, once client resolution has succeeded and the
validation phase has not aborted, mainInHost is the simulation phase run
on a trace holding no DAG event and no simulation call yet. -/
theorem mainInHost_to_runSimulations (d : Daemon) (o : List String) (fl : Flags)
    (cls : ClientsMap)
    (hsmoke : fl.smoke = false)
    (hfetch : d.fetchClientVersions fl.clientPattern = .ok cls)
    (hval : fl.validatorPattern = ""
      ∨ ∃ v, d.validateClients fl.clientPattern fl.validatorPattern o = .ok v) :
    ∃ t r, mainInHost d o fl = runSimulations d o fl t r
      ∧ Event.makeDAG ∉ t ∧ ∀ p q, Event.simulateCall p q ∉ t := by
  unfold mainInHost runValidations
  rw [hfetch]
  simp only [hsmoke, Bool.false_eq_true, if_false]
  by_cases hv : fl.validatorPattern = ""
  · simp only [hv, ne_eq, not_true_eq_false, if_false]
    refine ⟨_, _, rfl, ?_, ?_⟩ <;> simp
  · rcases hval with h | ⟨v, hok⟩
    · exact absurd h hv
    · simp only [hv, ne_eq, not_false_eq_true, if_true, hok]
      refine ⟨_, _, rfl, ?_, ?_⟩ <;> simp

/-- When the simulator pattern is non-empty and the DAG precomputation
fails, the simulation phase stops right after the DAG event with that
error and prints nothing. -/
theorem runSimulations_dag_error (d : Daemon) (o : List String) (fl : Flags)
    (t : List Event) (r : Results) (e : GoError)
    (hsim : fl.simulatorPattern ≠ "") (hdag : d.makeGenesisDAG = .error e) :
    runSimulations d o fl t r =
      { trace := t ++ [Event.makeDAG], output := [], err := some e } := by
  unfold runSimulations
  simp [hsim, hdag]

/-- When the simulator pattern is non-empty, the DAG step succeeds and the
simulation call fails, the simulation phase stops with that error after
the DAG and simulation events. -/
theorem runSimulations_sim_error (d : Daemon) (o : List String) (fl : Flags)
    (t : List Event) (r : Results) (e : GoError)
    (hsim : fl.simulatorPattern ≠ "") (hdag : d.makeGenesisDAG = .ok ())
    (hx : d.simulateClients fl.clientPattern fl.simulatorPattern o = .error e) :
    runSimulations d o fl t r =
      { trace := t ++ [Event.makeDAG, Event.simulateCall fl.clientPattern fl.simulatorPattern]
        output := [], err := some e } := by
  unfold runSimulations
  simp [hsim, hdag, hx]

/-- When the simulator pattern is non-empty and both the DAG step and the
simulation call succeed, the simulation phase hands over to the benchmark
phase with the two events appended and the simulations section filled. -/
theorem runSimulations_ok (d : Daemon) (o : List String) (fl : Flags)
    (t : List Event) (r : Results) (v : ResMap)
    (hsim : fl.simulatorPattern ≠ "") (hdag : d.makeGenesisDAG = .ok ())
    (hx : d.simulateClients fl.clientPattern fl.simulatorPattern o = .ok v) :
    runSimulations d o fl t r =
      runBenchmarks d o fl
        (t ++ [Event.makeDAG, Event.simulateCall fl.clientPattern fl.simulatorPattern])
        { r with simulations := v } := by
  unfold runSimulations
  simp [hsim, hdag, hx]

/-- When the simulator pattern is non-empty and the input trace holds no
DAG event and no simulation call, the simulation phase performs the DAG
step exactly once, every simulation call of the final trace sits after the
DAG event, and a DAG failure leaves no simulation call at all. -/
theorem runSimulations_dag (d : Daemon) (o : List String) (fl : Flags)
    (t : List Event) (r : Results)
    (hsim : fl.simulatorPattern ≠ "")
    (hd : Event.makeDAG ∉ t) (hcalls : ∀ p q, Event.simulateCall p q ∉ t) :
    ((runSimulations d o fl t r).trace.count Event.makeDAG = 1)
    ∧ (∀ p q, Event.simulateCall p q ∈ (runSimulations d o fl t r).trace →
        ∃ t1 t2, (runSimulations d o fl t r).trace = t1 ++ Event.makeDAG :: t2
          ∧ Event.simulateCall p q ∈ t2)
    ∧ (∀ e, d.makeGenesisDAG = .error e →
        ∀ p q, Event.simulateCall p q ∉ (runSimulations d o fl t r).trace) := by
  cases hdag : d.makeGenesisDAG with
  | error e2 =>
      rw [runSimulations_dag_error d o fl t r e2 hsim hdag]
      have hbase := dag_trace_spec t [] hd hcalls (by simp)
      refine ⟨by simpa using hbase.1, ?_, ?_⟩
      · intro p q hm
        have hm2 : Event.simulateCall p q ∈ t ++ Event.makeDAG :: [] := by simpa using hm
        obtain ⟨t1, t2, heq, hin⟩ := hbase.2 p q hm2
        exact ⟨t1, t2, by simpa using heq, hin⟩
      · intro e3 _ p q hm
        have hm2 : Event.simulateCall p q ∈ t ++ Event.makeDAG :: [] := by simpa using hm
        rcases List.mem_append.mp hm2 with h | h
        · exact absurd h (hcalls p q)
        · simp at h
  | ok u =>
      cases u
      cases hx : d.simulateClients fl.clientPattern fl.simulatorPattern o with
      | error e2 =>
          rw [runSimulations_sim_error d o fl t r e2 hsim hdag hx]
          have hbase := dag_trace_spec t
            [Event.simulateCall fl.clientPattern fl.simulatorPattern] hd hcalls (by simp)
          refine ⟨by simpa using hbase.1, ?_, ?_⟩
          · intro p q hm
            have hm2 : Event.simulateCall p q ∈
                t ++ Event.makeDAG :: [Event.simulateCall fl.clientPattern fl.simulatorPattern] := by
              simpa using hm
            obtain ⟨t1, t2, heq, hin⟩ := hbase.2 p q hm2
            exact ⟨t1, t2, by simpa using heq, hin⟩
          · intro e3 hcon
            exact Except.noConfusion hcon
      | ok v =>
          rw [runSimulations_ok d o fl t r v hsim hdag hx]
          rcases runBenchmarks_trace_or d o fl
              (t ++ [Event.makeDAG, Event.simulateCall fl.clientPattern fl.simulatorPattern])
              { r with simulations := v } with htr | htr
          · have hbase := dag_trace_spec t
              [Event.simulateCall fl.clientPattern fl.simulatorPattern] hd hcalls (by simp)
            refine ⟨?_, ?_, ?_⟩
            · rw [htr]; simpa using hbase.1
            · intro p q hm
              rw [htr] at hm
              have hm2 : Event.simulateCall p q ∈
                  t ++ Event.makeDAG :: [Event.simulateCall fl.clientPattern fl.simulatorPattern] := by
                simpa using hm
              obtain ⟨t1, t2, heq, hin⟩ := hbase.2 p q hm2
              exact ⟨t1, t2, by rw [htr]; simpa using heq, hin⟩
            · intro e3 hcon
              exact Except.noConfusion hcon
          · have hbase := dag_trace_spec t
              [Event.simulateCall fl.clientPattern fl.simulatorPattern,
                Event.benchmarkCall fl.clientPattern fl.benchmarkPattern] hd hcalls (by simp)
            refine ⟨?_, ?_, ?_⟩
            · rw [htr]; simpa using hbase.1
            · intro p q hm
              rw [htr] at hm
              have hm2 : Event.simulateCall p q ∈
                  t ++ Event.makeDAG :: [Event.simulateCall fl.clientPattern fl.simulatorPattern,
                    Event.benchmarkCall fl.clientPattern fl.benchmarkPattern] := by
                simpa using hm
              obtain ⟨t1, t2, heq, hin⟩ := hbase.2 p q hm2
              exact ⟨t1, t2, by rw [htr]; simpa using heq, hin⟩
            · intro e3 hcon
              exact Except.noConfusion hcon

/-- The smoke branch reads no flag other than the client pattern. -/
theorem runSmoke_pattern_free (d : Daemon) (o : List String) (fl fl2 : Flags)
    (t : List Event) (r : Results)
    (h : fl2.clientPattern = fl.clientPattern) :
    runSmoke d o fl2 t r = runSmoke d o fl t r := by
  unfold runSmoke finishReport
  rw [h]

/-- In smoke mode mainInHost depends only on the client pattern of its
flags. -/
theorem mainInHost_smoke_congr (d : Daemon) (o : List String) (fl fl2 : Flags)
    (hcp : fl2.clientPattern = fl.clientPattern)
    (hs2 : fl2.smoke = true) (hs1 : fl.smoke = true) :
    mainInHost d o fl2 = mainInHost d o fl := by
  unfold mainInHost
  rw [hcp]
  cases hf : d.fetchClientVersions fl.clientPattern with
  | error e => cases e <;> simp
  | ok cls =>
      simp only [hs1, hs2, if_true]
      exact runSmoke_pattern_free d o fl fl2 _ _ hcp

/-- C1 (confirmed): a client-level build error during client resolution
makes the run print a report whose clients section holds exactly the one
failing client mapped to an error payload, with the validation, simulation
and benchmark sections all empty, and the process exits nonzero. -/
theorem buildError_minimal_report (env : Env) (cmd : Flags) (c msg ver : String)
    (hshell : cmd.noShellContainer = true)
    (hclient : env.newClient cmd.dockerEndpoint = .ok ())
    (hver : env.daemonVersion = .ok ver)
    (hcache : env.compileCacher cmd.noCachePattern = .ok ())
    (hfetch : env.host.fetchClientVersions cmd.clientPattern = .error (.buildErr c msg)) :
    (mainGo env cmd).output =
      [marshalIndentResults
        { clients := [(c, [("error", msg)])], validations := [], simulations := []
          benchmarks := [] }]
    ∧ (mainGo env cmd).exitCode = -1 ∧ (mainGo env cmd).exitCode ≠ 0 := by
  unfold mainGo mainInHost
  simp only [hclient, hver, hcache, hshell, hfetch, if_true]
  simp [emptyResults]

/-- C2 (code bug): the two duration variables are initialized during
package initialization, before flag.Parse ever runs, so after parsing any
command line they still hold the values derived from the flag defaults 10
minutes and 30 seconds; at the concrete command line dockertimeout=20,
timeoutcheck=5 they differ from the parsed values the claim requires. -/
theorem durations_ignore_parsed_flags :
    (∀ cmd : Flags, (stateAfterParse cmd).dockerTimeoutDuration = 10 * minuteNs
        ∧ (stateAfterParse cmd).timeoutCheckDuration = 30 * secondNs)
    ∧ (stateAfterParse { flagDefaults with dockerTimeout := 20, timeoutCheck := 5 }).flags.dockerTimeout = 20
    ∧ (stateAfterParse { flagDefaults with dockerTimeout := 20, timeoutCheck := 5 }).dockerTimeoutDuration
        ≠ ({ flagDefaults with dockerTimeout := 20, timeoutCheck := 5 } : Flags).dockerTimeout * minuteNs
    ∧ (stateAfterParse { flagDefaults with dockerTimeout := 20, timeoutCheck := 5 }).timeoutCheckDuration
        ≠ ({ flagDefaults with dockerTimeout := 20, timeoutCheck := 5 } : Flags).timeoutCheck * secondNs :=
  ⟨fun _ => ⟨rfl, rfl⟩, rfl, by decide, by decide⟩

/-- C3 counterexample: in smoke mode the simulation call runs although the
DAG precomputation step is never invoked. -/
theorem smoke_simulations_without_dag_cex :
    Event.simulateCall ":master" "smoke/" ∈ (mainInHost dOk [] cmdSmoke).trace
    ∧ (mainInHost dOk [] cmdSmoke).trace.count Event.makeDAG = 0
    ∧ (mainInHost dOk [] cmdSmoke).err = none := by decide

/-- C3 (corrected): outside smoke mode, with a non-empty simulator
pattern, successful client resolution and a validation phase that does not
abort, the DAG precomputation runs exactly once, every simulation call of
the trace sits after it, and on DAG failure no simulation call happens at
all; smoke mode however runs its simulation call without any DAG step. -/
theorem dag_gates_simulations (d : Daemon) (o : List String) (fl : Flags)
    (cls : ClientsMap)
    (hsmoke : fl.smoke = false) (hsim : fl.simulatorPattern ≠ "")
    (hfetch : d.fetchClientVersions fl.clientPattern = .ok cls)
    (hval : fl.validatorPattern = ""
      ∨ ∃ v, d.validateClients fl.clientPattern fl.validatorPattern o = .ok v) :
    ((mainInHost d o fl).trace.count Event.makeDAG = 1)
    ∧ (∀ p q, Event.simulateCall p q ∈ (mainInHost d o fl).trace →
        ∃ t1 t2, (mainInHost d o fl).trace = t1 ++ Event.makeDAG :: t2
          ∧ Event.simulateCall p q ∈ t2)
    ∧ (∀ e, d.makeGenesisDAG = .error e →
        ∀ p q, Event.simulateCall p q ∉ (mainInHost d o fl).trace) := by
  obtain ⟨t, r, heq, h1, h2⟩ := mainInHost_to_runSimulations d o fl cls hsmoke hfetch hval
  rw [heq]
  exact runSimulations_dag d o fl t r hsim h1 h2

/-- C3 witness: at a concrete non-smoke run with simulations enabled the
DAG precomputation appears exactly once. -/
theorem dag_gates_simulations_witness :
    cmdValSim.simulatorPattern ≠ ""
    ∧ (mainInHost dOk [] cmdValSim).trace.count Event.makeDAG = 1 :=
  ⟨by decide,
    (dag_gates_simulations dOk [] cmdValSim clsGeth rfl (by decide) rfl
      (Or.inr ⟨valGeth, rfl⟩)).1⟩

/-- C4 counterexample: the validation phase completed with results, then
the DAG precomputation failed, and the run printed nothing at all — the
completed validation results appear nowhere in the emitted output. -/
theorem dag_failure_loses_validations_cex :
    dDagFail.validateClients ":master" "." [] = .ok valGeth
    ∧ (mainInHost dDagFail [] cmdValSim).trace =
        [Event.fetchVersions ":master", Event.validateCall ":master" ".", Event.makeDAG]
    ∧ (mainInHost dDagFail [] cmdValSim).output = []
    ∧ (mainInHost dDagFail [] cmdValSim).err = some (.other "dag failed") :=
  ⟨rfl, by decide, rfl, rfl⟩

/-- C4 (corrected): if the DAG precomputation fails, no simulation call is
made and mainInHost aborts with the DAG error, emitting no output at all,
so the already-completed validation results are not preserved in any
emitted output. -/
theorem dag_failure_aborts_run (d : Daemon) (o : List String) (fl : Flags)
    (cls : ClientsMap) (e : GoError)
    (hsmoke : fl.smoke = false) (hsim : fl.simulatorPattern ≠ "")
    (hfetch : d.fetchClientVersions fl.clientPattern = .ok cls)
    (hval : fl.validatorPattern = ""
      ∨ ∃ v, d.validateClients fl.clientPattern fl.validatorPattern o = .ok v)
    (hdag : d.makeGenesisDAG = .error e) :
    (mainInHost d o fl).output = []
    ∧ (mainInHost d o fl).err = some e
    ∧ ∀ p q, Event.simulateCall p q ∉ (mainInHost d o fl).trace := by
  obtain ⟨t, r, heq, h1, h2⟩ := mainInHost_to_runSimulations d o fl cls hsmoke hfetch hval
  rw [heq, runSimulations_dag_error d o fl t r e hsim hdag]
  refine ⟨rfl, rfl, ?_⟩
  intro p q hm
  rcases List.mem_append.mp hm with h | h
  · exact absurd h (h2 p q)
  · simp at h

/-- C4 witness: at a concrete run whose DAG step fails, nothing is
printed. -/
theorem dag_failure_aborts_run_witness :
    dDagFail.makeGenesisDAG = .error (.other "dag failed")
    ∧ (mainInHost dDagFail [] cmdValSim).output = [] :=
  ⟨rfl,
    (dag_failure_aborts_run dDagFail [] cmdValSim clsGeth (.other "dag failed") rfl
      (by decide) rfl (Or.inr ⟨valGeth, rfl⟩) rfl).1⟩

/-- C5 (confirmed): in smoke mode every category call uses the fixed
test subtree "smoke/", and the outcome is unchanged under any values of
the three category pattern flags, which are therefore without effect. -/
theorem smoke_fixed_subtree (d : Daemon) (o : List String) (fl : Flags)
    (hsmoke : fl.smoke = true) :
    (∀ p q, (Event.validateCall p q ∈ (mainInHost d o fl).trace
        ∨ Event.simulateCall p q ∈ (mainInHost d o fl).trace
        ∨ Event.benchmarkCall p q ∈ (mainInHost d o fl).trace) → q = "smoke/")
    ∧ ∀ a b c, mainInHost d o
        { fl with validatorPattern := a, simulatorPattern := b, benchmarkPattern := c }
        = mainInHost d o fl := by
  constructor
  · intro p q hq
    rcases hq with h | h | h <;>
      have h2 := mainInHost_events d o fl _ h <;>
      simp [hsmoke] at h2 <;>
      tauto
  · intro a b c
    exact mainInHost_smoke_congr d o fl _ rfl hsmoke hsmoke

/-- C5 witness: at a concrete smoke run the three category pattern flags
can be replaced without changing the outcome. -/
theorem smoke_fixed_subtree_witness :
    cmdSmoke.smoke = true
    ∧ mainInHost dOk []
        { cmdSmoke with validatorPattern := "x", simulatorPattern := "y", benchmarkPattern := "z" }
      = mainInHost dOk [] cmdSmoke :=
  ⟨rfl, (smoke_fixed_subtree dOk [] cmdSmoke rfl).2 "x" "y" "z"⟩

/-- C6 counterexample: a malformed rebuild-exclusion pattern aborts the
run before any work, yet the process exit code is zero. -/
theorem config_error_exits_zero_cex :
    envBadCache.compileCacher cmdBadCache.noCachePattern = .error (.other "error parsing regexp")
    ∧ (mainGo envBadCache cmdBadCache).exitCode = 0
    ∧ (mainGo envBadCache cmdBadCache).output = [] :=
  ⟨rfl, rfl, rfl⟩

/-- C6 (corrected): when the daemon connection, the version query and the
nocache pattern all succeed, the host-mode exit code is zero exactly when
mainInHost reports no error; but a daemon connection failure, a version
query failure or a nocache pattern error make main return early with exit
code zero and no output, instead of the nonzero exit the claim requires. -/
theorem exit_code_characterization :
    (∀ env cmd ver, cmd.noShellContainer = true →
        env.newClient cmd.dockerEndpoint = .ok () →
        env.daemonVersion = .ok ver →
        env.compileCacher cmd.noCachePattern = .ok () →
        ((mainGo env cmd).exitCode = 0 ↔ (mainInHost env.host (overridesOf cmd) cmd).err = none)
        ∧ (mainGo env cmd).output = (mainInHost env.host (overridesOf cmd) cmd).output)
    ∧ (∀ env cmd e, env.newClient cmd.dockerEndpoint = .error e →
        (mainGo env cmd).exitCode = 0 ∧ (mainGo env cmd).output = [])
    ∧ (∀ env cmd ver e, env.newClient cmd.dockerEndpoint = .ok () →
        env.daemonVersion = .ok ver → env.compileCacher cmd.noCachePattern = .error e →
        (mainGo env cmd).exitCode = 0 ∧ (mainGo env cmd).output = [])
    ∧ (∀ env cmd e, env.newClient cmd.dockerEndpoint = .ok () →
        env.daemonVersion = .error e →
        (mainGo env cmd).exitCode = 0 ∧ (mainGo env cmd).output = []) := by
  refine ⟨?_, ?_, ?_, ?_⟩
  · intro env cmd ver hsh hc hv hcc
    unfold mainGo
    simp only [hc, hv, hcc, hsh, if_true]
    cases hval : (mainInHost env.host (overridesOf cmd) cmd).err <;> simp [hval]
  · intro env cmd e hc
    unfold mainGo
    simp [hc]
  · intro env cmd ver e hc hv hcc
    unfold mainGo
    simp [hc, hv, hcc]
  · intro env cmd e hc hv
    unfold mainGo
    simp [hc, hv]

/-- C6 witness: a concrete successful host run exits zero, and a concrete
nocache-pattern failure also exits zero. -/
theorem exit_code_characterization_witness :
    ((mainGo (envWith dOk) cmdHost).exitCode = 0
      ↔ (mainInHost (envWith dOk).host (overridesOf cmdHost) cmdHost).err = none)
    ∧ ((mainGo envBadCache cmdBadCache).exitCode = 0
      ∧ (mainGo envBadCache cmdBadCache).output = []) :=
  ⟨(exit_code_characterization.1 (envWith dOk) cmdHost "1.25" rfl rfl rfl rfl).1,
    exit_code_characterization.2.2.1 envBadCache cmdBadCache "1.25"
      (.other "error parsing regexp") rfl rfl rfl⟩

/-- C7 counterexample: a successful run with only validations enabled
emits a report without the simulations and benchmarks keys, so the
serialized report does not carry all four keys as claimed. -/
theorem success_report_missing_fixed_keys_cex :
    (mainInHost dOk [] cmdHost).err = none
    ∧ (mainInHost dOk [] cmdHost).output = [marshalIndentResults rDefault]
    ∧ "simulations" ∉ objKeys (marshalResults rDefault)
    ∧ "benchmarks" ∉ objKeys (marshalResults rDefault) :=
  ⟨rfl, rfl, by decide, by decide⟩

/-- C7 (corrected): every line the run prints is the results struct
serialized by MarshalIndent with two-space indentation, and the object
carries the keys clients, validations, simulations, benchmarks in that
order, each present exactly when its section is non-empty (omitempty), not
unconditionally. -/
theorem report_keys_match_nonempty_sections (d : Daemon) (o : List String) (fl : Flags) :
    ∀ s ∈ (mainInHost d o fl).output, ∃ r : Results,
      s = marshalIndentResults r
      ∧ (objKeys (marshalResults r)).Sublist ["clients", "validations", "simulations", "benchmarks"]
      ∧ ("clients" ∈ objKeys (marshalResults r) ↔ r.clients ≠ [])
      ∧ ("validations" ∈ objKeys (marshalResults r) ↔ r.validations ≠ [])
      ∧ ("simulations" ∈ objKeys (marshalResults r) ↔ r.simulations ≠ [])
      ∧ ("benchmarks" ∈ objKeys (marshalResults r) ↔ r.benchmarks ≠ []) := by
  intro s hs
  obtain ⟨r2, h1, _, _, _⟩ := mainInHost_out d o fl s hs
  obtain ⟨k1, k2, k3, k4, k5⟩ := marshalResults_keys_spec r2
  exact ⟨r2, h1, k1, k2, k3, k4, k5⟩

/-- C7 witness: the report of a concrete defaults run satisfies the key
characterization. -/
theorem report_keys_match_nonempty_sections_witness :
    marshalIndentResults rDefault ∈ (mainInHost dOk [] cmdHost).output
    ∧ ∃ r : Results, marshalIndentResults rDefault = marshalIndentResults r
      ∧ (objKeys (marshalResults r)).Sublist ["clients", "validations", "simulations", "benchmarks"]
      ∧ ("clients" ∈ objKeys (marshalResults r) ↔ r.clients ≠ [])
      ∧ ("validations" ∈ objKeys (marshalResults r) ↔ r.validations ≠ [])
      ∧ ("simulations" ∈ objKeys (marshalResults r) ↔ r.simulations ≠ [])
      ∧ ("benchmarks" ∈ objKeys (marshalResults r) ↔ r.benchmarks ≠ []) :=
  ⟨List.mem_singleton.mpr rfl,
    report_keys_match_nonempty_sections dOk [] cmdHost _ (List.mem_singleton.mpr rfl)⟩

/-- C8 (confirmed): on a non-smoke run on which every requested call
succeeds, the emitted report is exactly the record whose sections each
come from their own category call — categories merge additively, no
section ever overwrites another, so the final content does not depend on
the category execution order. -/
theorem categories_merge_additively (d : Daemon) (o : List String) (fl : Flags)
    (cls : ClientsMap) (v s b : ResMap)
    (hsmoke : fl.smoke = false)
    (hfetch : d.fetchClientVersions fl.clientPattern = .ok cls)
    (hval : d.validateClients fl.clientPattern fl.validatorPattern o = .ok v)
    (hdag : d.makeGenesisDAG = .ok ())
    (hsim : d.simulateClients fl.clientPattern fl.simulatorPattern o = .ok s)
    (hbench : d.benchmarkClients fl.clientPattern fl.benchmarkPattern o = .ok b) :
    (mainInHost d o fl).err = none
    ∧ (mainInHost d o fl).output =
      [marshalIndentResults
        { clients := cls
          validations := if fl.validatorPattern ≠ "" then v else []
          simulations := if fl.simulatorPattern ≠ "" then s else []
          benchmarks := if fl.benchmarkPattern ≠ "" then b else [] }] := by
  unfold mainInHost runValidations runSimulations runBenchmarks finishReport
  rw [hfetch]
  by_cases h1 : fl.validatorPattern = "" <;> by_cases h2 : fl.simulatorPattern = "" <;>
    by_cases h3 : fl.benchmarkPattern = "" <;>
    simp [hsmoke, h1, h2, h3, hval, hdag, hsim, hbench, emptyResults]

/-- C8 witness: a concrete run with all categories enabled succeeds and
reports each category into its own section. -/
theorem categories_merge_additively_witness :
    dOk.fetchClientVersions cmdFull.clientPattern = .ok clsGeth
    ∧ (mainInHost dOk [] cmdFull).err = none :=
  ⟨rfl,
    (categories_merge_additively dOk [] cmdFull clsGeth valGeth simGeth benchGeth
      rfl rfl rfl rfl rfl rfl).1⟩

/-- C9 (confirmed): outside smoke mode, an empty category pattern means no
call of that category ever appears in the trace, every emitted report has
an empty section for it — hence no such key in the serialized object —
and for the simulation category the DAG step is skipped too; with the
default flags every call is the client resolution or a validation call. -/
theorem empty_pattern_disables_category (d : Daemon) (o : List String) (fl : Flags)
    (hsmoke : fl.smoke = false) :
    (fl.validatorPattern = "" →
      (∀ p q, Event.validateCall p q ∉ (mainInHost d o fl).trace)
      ∧ ∀ s2 ∈ (mainInHost d o fl).output, ∃ r : Results, s2 = marshalIndentResults r
          ∧ "validations" ∉ objKeys (marshalResults r))
    ∧ (fl.simulatorPattern = "" →
      Event.makeDAG ∉ (mainInHost d o fl).trace
      ∧ (∀ p q, Event.simulateCall p q ∉ (mainInHost d o fl).trace)
      ∧ ∀ s2 ∈ (mainInHost d o fl).output, ∃ r : Results, s2 = marshalIndentResults r
          ∧ "simulations" ∉ objKeys (marshalResults r))
    ∧ (fl.benchmarkPattern = "" →
      (∀ p q, Event.benchmarkCall p q ∉ (mainInHost d o fl).trace)
      ∧ ∀ s2 ∈ (mainInHost d o fl).output, ∃ r : Results, s2 = marshalIndentResults r
          ∧ "benchmarks" ∉ objKeys (marshalResults r))
    ∧ (∀ e ∈ (mainInHost d o flagDefaults).trace,
        e = Event.fetchVersions ":master" ∨ e = Event.validateCall ":master" ".") := by
  refine ⟨?_, ?_, ?_, ?_⟩
  · intro hv
    constructor
    · intro p q hm
      have h2 := mainInHost_events d o fl _ hm
      simp [hsmoke, hv] at h2
    · intro s2 hs2
      obtain ⟨r2, h1, hv2, _, _⟩ := mainInHost_out d o fl s2 hs2
      refine ⟨r2, h1, ?_⟩
      have hkey := (marshalResults_keys_spec r2).2.2.1
      exact fun hmem => (hkey.mp hmem) (hv2 hsmoke hv)
  · intro hv
    refine ⟨?_, ?_, ?_⟩
    · intro hm
      have h2 := mainInHost_events d o fl _ hm
      simp [hsmoke, hv] at h2
    · intro p q hm
      have h2 := mainInHost_events d o fl _ hm
      simp [hsmoke, hv] at h2
    · intro s2 hs2
      obtain ⟨r2, h1, _, hs3, _⟩ := mainInHost_out d o fl s2 hs2
      refine ⟨r2, h1, ?_⟩
      have hkey := (marshalResults_keys_spec r2).2.2.2.1
      exact fun hmem => (hkey.mp hmem) (hs3 hsmoke hv)
  · intro hv
    constructor
    · intro p q hm
      have h2 := mainInHost_events d o fl _ hm
      simp [hsmoke, hv] at h2
    · intro s2 hs2
      obtain ⟨r2, h1, _, _, hb3⟩ := mainInHost_out d o fl s2 hs2
      refine ⟨r2, h1, ?_⟩
      have hkey := (marshalResults_keys_spec r2).2.2.2.2
      exact fun hmem => (hkey.mp hmem) (hb3 hsmoke hv)
  · intro e he
    have h2 := mainInHost_events d o flagDefaults e he
    simp [flagDefaults] at h2
    tauto

/-- C9 witness: at a concrete defaults run in host mode, the DAG step
never appears in the trace. -/
theorem empty_pattern_disables_category_witness :
    cmdHost.smoke = false ∧ cmdHost.simulatorPattern = ""
    ∧ Event.makeDAG ∉ (mainInHost dOk [] cmdHost).trace :=
  ⟨rfl, rfl, ((empty_pattern_disables_category dOk [] cmdHost rfl).2.1 rfl).1⟩

/-- C10 (confirmed): a client resolution failure that is not a typed build
error makes mainInHost return that error with nothing printed and only the
resolution call in the trace — the minimal error report is reserved for
build errors. -/
theorem nonbuild_resolution_error (d : Daemon) (o : List String) (fl : Flags)
    (m : String)
    (hfetch : d.fetchClientVersions fl.clientPattern = .error (.other m)) :
    (mainInHost d o fl).output = []
    ∧ (mainInHost d o fl).err = some (.other m)
    ∧ (mainInHost d o fl).trace = [Event.fetchVersions fl.clientPattern] := by
  unfold mainInHost
  rw [hfetch]
  exact ⟨rfl, rfl, rfl⟩

/-- C10 witness: a concrete daemon-level resolution failure prints nothing
and propagates the error. -/
theorem nonbuild_resolution_error_witness :
    dOtherFail.fetchClientVersions flagDefaults.clientPattern = .error (.other "daemon down")
    ∧ (mainInHost dOtherFail [] flagDefaults).output = [] :=
  ⟨rfl, (nonbuild_resolution_error dOtherFail [] flagDefaults "daemon down" rfl).1⟩

/-- C1 witness: at a concrete environment whose client resolution fails
with a build error, the run prints the minimal report and exits -1. -/
theorem buildError_minimal_report_witness :
    (envWith dBuildFail).host.fetchClientVersions cmdHost.clientPattern
      = .error (.buildErr "geth" "boom")
    ∧ (mainGo (envWith dBuildFail) cmdHost).exitCode = -1 :=
  ⟨rfl,
    (buildError_minimal_report (envWith dBuildFail) cmdHost "geth" "boom" "1.25"
      rfl rfl rfl rfl rfl).2.1⟩
